import Mathlib

/-
Verification of the series_viewer slice/crosshair index model.

The definitions below are a shallow embedding of the pure core of the
repository: `app/main.py` (module-level functions `fix_index`,
`get_image_data`, `update_crosshair`, `update_crosshairs`, `set_image`,
`update_plane_index`, `update_values_range`, `change_displayed_range`)
together with the static table `app/utils/crosshair.py`
(`crosshair_line_dict`).  The same transforms appear again in
`app/utils/series.py` / `app/utils/plane_figure.py` with identical bodies.

Arrays are modelled shape-and-contents: a 2D slice is a pair of extents
plus a total valuation function on positions, and a 3D volume likewise.
Sample values are integers.  `np.take(data, index, axis)` is modelled with
numpy's index semantics: an index `i` with `-n <= i < n` succeeds (negative
indices count from the end), anything else raises, modelled as `none`.
-/

namespace SeriesViewer

/-- Modelled from the spec: the `Plane` enumeration lives in
`app/utils/plane.py`, which is not among the provided source files.  The
spec binds the three anatomical planes TRANSVERSE, SAGITTAL, CORONAL to
array axis indices 0, 1, 2 respectively (volume shape `(A0, A1, A2)`, one
axis per plane; the shape scenario `get_slice(TRANSVERSE, 3)` on a
`(10,20,30)` volume yielding `(20,30)` fixes TRANSVERSE to axis 0). -/
inductive Plane : Type
  | TRANSVERSE : Plane
  | SAGITTAL : Plane
  | CORONAL : Plane
deriving DecidableEq, Repr

/-- The axis bound to a plane (`Plane.value` in the source). -/
def Plane.value : Plane → Nat
  | Plane.TRANSVERSE => 0
  | Plane.SAGITTAL => 1
  | Plane.CORONAL => 2

/-- A 2D array of integer samples: two extents and a valuation on
positions (row, column). -/
structure Slice : Type where
  rows : Nat
  cols : Nat
  val : Nat → Nat → Int

/-- A 3D array of integer samples, shape `(d0, d1, d2)`. -/
structure Volume : Type where
  d0 : Nat
  d1 : Nat
  d2 : Nat
  val : Nat → Nat → Nat → Int

/-- The volume's extent along a plane's axis: `data.shape[plane.value]`. -/
def axis_size (v : Volume) (p : Plane) : Nat :=
  match p with
  | Plane.TRANSVERSE => v.d0
  | Plane.SAGITTAL => v.d1
  | Plane.CORONAL => v.d2

/-- `fix_index` from `app/main.py` (identical to
`Series._fix_index` in `app/utils/series.py`): an index at or past the end
wraps to 0, a negative index wraps to the last valid index, anything else
passes through. -/
def fix_index (v : Volume) (p : Plane) (index : Int) : Int :=
  let n : Int := (axis_size v p : Int)
  if index ≥ n then 0
  else if index < 0 then n - 1
  else index

/-- C1: for every plane with axis size at least 1, `fix_index` wraps an
index at or beyond the axis size to 0, wraps a negative index to
`axis_size - 1`, and passes an in-range index through unchanged. -/
theorem fix_index_wraps (v : Volume) (p : Plane) (h : 1 ≤ axis_size v p)
    (i : Int) :
    (i ≥ (axis_size v p : Int) → fix_index v p i = 0) ∧
    (i < 0 → fix_index v p i = (axis_size v p : Int) - 1) ∧
    (0 ≤ i → i < (axis_size v p : Int) → fix_index v p i = i) := by
  refine ⟨fun hge => ?_, fun hlt => ?_, fun h0 hn => ?_⟩
  · simp [fix_index, hge]
  · have : ¬ ((axis_size v p : Int) ≤ i) := by omega
    simp [fix_index, this, hlt]
  · have h1 : ¬ ((axis_size v p : Int) ≤ i) := by omega
    have h2 : ¬ (i < 0) := by omega
    simp [fix_index, h1, h2]

/-- Witness for C1 at a concrete volume of shape (10, 20, 30). -/
theorem fix_index_wraps_witness :
    1 ≤ axis_size ⟨10, 20, 30, fun _ _ _ => 0⟩ Plane.TRANSVERSE ∧
    fix_index ⟨10, 20, 30, fun _ _ _ => 0⟩ Plane.TRANSVERSE 10 = 0 := by
  refine ⟨by decide, ?_⟩
  exact (fix_index_wraps ⟨10, 20, 30, fun _ _ _ => 0⟩ Plane.TRANSVERSE
    (by decide) 10).1 (by decide)

/-- Transposition of a 2D array (`np.transpose`). -/
def Slice.transpose (s : Slice) : Slice :=
  ⟨s.cols, s.rows, fun a b => s.val b a⟩

/-- `np.take(data, index, axis=plane.value)`: succeeds exactly when
`-n <= index < n` for `n` the axis extent, with a negative index counting
from the end; out of that range numpy raises `IndexError`, modelled as
`none`. -/
def npTake (v : Volume) (p : Plane) (index : Int) : Option Slice :=
  let n : Int := (axis_size v p : Int)
  if -n ≤ index ∧ index < n then
    let i : Nat := (if index < 0 then index + n else index).toNat
    some (match p with
      | Plane.TRANSVERSE => ⟨v.d1, v.d2, fun a b => v.val i a b⟩
      | Plane.SAGITTAL => ⟨v.d0, v.d2, fun a b => v.val a i b⟩
      | Plane.CORONAL => ⟨v.d0, v.d1, fun a b => v.val a b i⟩)
  else
    none

/-- `get_image_data` from `app/main.py`: take the sub-array along the
plane's axis, then transpose for CORONAL and SAGITTAL (identical to
`Series.get_reoriented_image` in `app/utils/series.py`). -/
def get_image_data (v : Volume) (p : Plane) (index : Int) : Option Slice :=
  (npTake v p index).map fun image =>
    match p with
    | Plane.CORONAL => image.transpose
    | Plane.SAGITTAL => image.transpose
    | Plane.TRANSVERSE => image

/-- C2: for every in-range index, `get_image_data` succeeds and the slice's
shape is the pair of non-selected axis extents — in axis order for
TRANSVERSE, transposed for SAGITTAL and CORONAL; the samples are the
volume's samples at the corresponding positions. -/
theorem get_image_data_shape (v : Volume) (p : Plane) (i : Int)
    (h0 : 0 ≤ i) (h1 : i < (axis_size v p : Int)) :
    ∃ s, get_image_data v p i = some s ∧
      (match p with
       | Plane.TRANSVERSE =>
           s.rows = v.d1 ∧ s.cols = v.d2 ∧
           ∀ a b, s.val a b = v.val i.toNat a b
       | Plane.SAGITTAL =>
           s.rows = v.d2 ∧ s.cols = v.d0 ∧
           ∀ a b, s.val a b = v.val b i.toNat a
       | Plane.CORONAL =>
           s.rows = v.d1 ∧ s.cols = v.d0 ∧
           ∀ a b, s.val a b = v.val b a i.toNat) := by
  have hneg : ¬ (i < 0) := by omega
  cases p with
  | TRANSVERSE =>
      have hle : -((axis_size v Plane.TRANSVERSE : Nat) : Int) ≤ i := by omega
      refine ⟨⟨v.d1, v.d2, fun a b => v.val i.toNat a b⟩, ?_,
        rfl, rfl, fun a b => rfl⟩
      simp only [axis_size] at hle h1
      simp [get_image_data, npTake, axis_size, hle, h1, hneg]
  | SAGITTAL =>
      have hle : -((axis_size v Plane.SAGITTAL : Nat) : Int) ≤ i := by omega
      refine ⟨⟨v.d2, v.d0, fun a b => v.val b i.toNat a⟩, ?_,
        rfl, rfl, fun a b => rfl⟩
      simp only [axis_size] at hle h1
      simp [get_image_data, npTake, axis_size, hle, h1, hneg, Slice.transpose]
  | CORONAL =>
      have hle : -((axis_size v Plane.CORONAL : Nat) : Int) ≤ i := by omega
      refine ⟨⟨v.d1, v.d0, fun a b => v.val b a i.toNat⟩, ?_,
        rfl, rfl, fun a b => rfl⟩
      simp only [axis_size] at hle h1
      simp [get_image_data, npTake, axis_size, hle, h1, hneg, Slice.transpose]

/-- A concrete sample volume of shape (2, 3, 4) used by witnesses. -/
def sampleVolume : Volume :=
  ⟨2, 3, 4, fun a b c => (a : Int) + 2 * b - 3 * c⟩

/-- Witness for C2 at the sample volume, SAGITTAL plane, index 1. -/
theorem get_image_data_shape_witness :
    (0 : Int) ≤ 1 ∧ (1 : Int) < (axis_size sampleVolume Plane.SAGITTAL : Int) ∧
    ∃ s, get_image_data sampleVolume Plane.SAGITTAL 1 = some s ∧
      s.rows = sampleVolume.d2 ∧ s.cols = sampleVolume.d0 ∧
      ∀ a b, s.val a b = sampleVolume.val b (1 : Int).toNat a := by
  refine ⟨by decide, by decide, ?_⟩
  exact get_image_data_shape sampleVolume Plane.SAGITTAL 1 (by decide) (by decide)

/-- Helper: `fix_index` always lands inside `[0, axis_size)` on a non-empty
axis. -/
lemma fix_index_bounds (v : Volume) (p : Plane) (h : 1 ≤ axis_size v p)
    (i : Int) :
    0 ≤ fix_index v p i ∧ fix_index v p i < (axis_size v p : Int) := by
  unfold fix_index
  by_cases hge : i ≥ (axis_size v p : Int)
  · simp only [hge, if_pos]
    omega
  · by_cases hlt : i < 0
    · simp only [hge, hlt, if_neg, if_pos, not_false_iff]
      omega
    · simp only [hge, hlt, if_neg, not_false_iff]
      omega

/-- Helper: slicing at an in-range index succeeds. -/
lemma get_image_data_isSome (v : Volume) (p : Plane) (j : Int)
    (h0 : 0 ≤ j) (h1 : j < (axis_size v p : Int)) :
    (get_image_data v p j).isSome = true := by
  have hle : -((axis_size v p : Nat) : Int) ≤ j := by omega
  simp [get_image_data, npTake, hle, h1]

/-- C8: on a non-empty axis, `fix_index` of any integer lies in
`[0, axis_size - 1]`, so slicing at the wrapped index never takes the
out-of-range error branch. -/
theorem fix_index_safe (v : Volume) (p : Plane) (h : 1 ≤ axis_size v p)
    (i : Int) :
    0 ≤ fix_index v p i ∧ fix_index v p i ≤ (axis_size v p : Int) - 1 ∧
    (get_image_data v p (fix_index v p i)).isSome = true := by
  obtain ⟨hb0, hb1⟩ := fix_index_bounds v p h i
  exact ⟨hb0, by omega, get_image_data_isSome v p _ hb0 hb1⟩

/-- Witness for C8 at the sample volume, CORONAL plane, index -7. -/
theorem fix_index_safe_witness :
    1 ≤ axis_size sampleVolume Plane.CORONAL ∧
    (0 ≤ fix_index sampleVolume Plane.CORONAL (-7) ∧
     fix_index sampleVolume Plane.CORONAL (-7) ≤
       (axis_size sampleVolume Plane.CORONAL : Int) - 1 ∧
     (get_image_data sampleVolume Plane.CORONAL
        (fix_index sampleVolume Plane.CORONAL (-7))).isSome = true) :=
  ⟨by decide, fix_index_safe sampleVolume Plane.CORONAL (by decide) (-7)⟩

/-- The per-sample effect of the two masked assignments in
`change_displayed_range` (`app/main.py`) / `PlaneFigure.change_displayed_range`
(`app/utils/plane_figure.py`): first every sample `>= max_value` is set to
`max_value`, then every sample `<= min_value` is set to `min_value`. -/
def clampSample (min_value max_value v : Int) : Int :=
  let v1 := if v ≥ max_value then max_value else v
  if v1 ≤ min_value then min_value else v1

/-- `change_displayed_range` from `app/main.py`, restricted to its array
transform: the displayed image is replaced by a copy of the slice with the
two masked assignments applied elementwise. -/
def change_displayed_range (s : Slice) (min_value max_value : Int) : Slice :=
  ⟨s.rows, s.cols, fun a b => clampSample min_value max_value (s.val a b)⟩

/-- A concrete 1-by-3 slice holding -4, 2, 9, used by witnesses. -/
def sampleClampSlice : Slice :=
  ⟨1, 3, fun _ b => if b = 0 then -4 else if b = 1 then 2 else 9⟩

/-- Helper: case analysis of `clampSample` under `lo ≤ hi`. -/
lemma clampSample_spec (lo hi v : Int) (h : lo ≤ hi) :
    (v ≤ lo → clampSample lo hi v = lo) ∧
    (hi ≤ v → clampSample lo hi v = hi) ∧
    (lo < v → v < hi → clampSample lo hi v = v) := by
  refine ⟨fun h1 => ?_, fun h2 => ?_, fun h3 h4 => ?_⟩ <;>
    · simp only [clampSample]
      split_ifs <;> omega

/-- C4: with `low ≤ high`, the clamp keeps the slice's shape and maps each
sample `s` to `low` when `s ≤ low`, to `high` when `s ≥ high`, and to `s`
otherwise. -/
theorem change_displayed_range_clamps (s : Slice) (lo hi : Int)
    (h : lo ≤ hi) :
    (change_displayed_range s lo hi).rows = s.rows ∧
    (change_displayed_range s lo hi).cols = s.cols ∧
    ∀ a b,
      (s.val a b ≤ lo → (change_displayed_range s lo hi).val a b = lo) ∧
      (hi ≤ s.val a b → (change_displayed_range s lo hi).val a b = hi) ∧
      (lo < s.val a b → s.val a b < hi →
        (change_displayed_range s lo hi).val a b = s.val a b) :=
  ⟨rfl, rfl, fun a b => clampSample_spec lo hi (s.val a b) h⟩

/-- Witness for C4 at a concrete 1-by-3 slice holding -4, 2, 9. -/
theorem change_displayed_range_clamps_witness :
    (0 : Int) ≤ 5 ∧
    ((change_displayed_range sampleClampSlice 0 5).rows =
        sampleClampSlice.rows ∧
      (change_displayed_range sampleClampSlice 0 5).cols =
        sampleClampSlice.cols ∧
      ∀ a b,
        (sampleClampSlice.val a b ≤ 0 →
          (change_displayed_range sampleClampSlice 0 5).val a b = 0) ∧
        ((5 : Int) ≤ sampleClampSlice.val a b →
          (change_displayed_range sampleClampSlice 0 5).val a b = 5) ∧
        ((0 : Int) < sampleClampSlice.val a b →
          sampleClampSlice.val a b < 5 →
          (change_displayed_range sampleClampSlice 0 5).val a b =
            sampleClampSlice.val a b)) :=
  ⟨by decide, change_displayed_range_clamps sampleClampSlice 0 5 (by decide)⟩

/-- C7: the clamp transform is idempotent for every bounds pair. -/
theorem change_displayed_range_idempotent (s : Slice) (lo hi : Int) :
    change_displayed_range (change_displayed_range s lo hi) lo hi =
      change_displayed_range s lo hi := by
  unfold change_displayed_range
  congr 1
  funext a b
  simp only [clampSample]
  split_ifs <;> omega

/-- C10: with `low ≥ high` the clamp collapses every sample to `low`,
because the upper mask runs before the lower mask. -/
theorem change_displayed_range_degenerate (s : Slice) (lo hi : Int)
    (h : hi ≤ lo) :
    (change_displayed_range s lo hi).rows = s.rows ∧
    (change_displayed_range s lo hi).cols = s.cols ∧
    ∀ a b, (change_displayed_range s lo hi).val a b = lo := by
  refine ⟨rfl, rfl, fun a b => ?_⟩
  simp only [change_displayed_range, clampSample]
  split_ifs <;> omega

/-- Witness for C10 at the sample slice with inverted bounds (7, 2). -/
theorem change_displayed_range_degenerate_witness :
    (2 : Int) ≤ 7 ∧
    ((change_displayed_range sampleClampSlice 7 2).rows =
        sampleClampSlice.rows ∧
      (change_displayed_range sampleClampSlice 7 2).cols =
        sampleClampSlice.cols ∧
      ∀ a b, (change_displayed_range sampleClampSlice 7 2).val a b = 7) :=
  ⟨by decide, change_displayed_range_degenerate sampleClampSlice 7 2 (by decide)⟩

/-- All samples of a slice, row by row (`image.min()` / `image.max()` in the
source range over exactly these values). -/
def sliceValues (s : Slice) : List Int :=
  (List.range s.rows).flatMap fun a =>
    (List.range s.cols).map fun b => s.val a b

/-- Minimum of a list of samples; `none` on the empty list (numpy raises
there). -/
def list_min : List Int → Option Int
  | [] => none
  | x :: xs => some (xs.foldl min x)

/-- Maximum of a list of samples; `none` on the empty list. -/
def list_max : List Int → Option Int
  | [] => none
  | x :: xs => some (xs.foldl max x)

/-- `update_values_range` from `app/main.py`, restricted to the range state
it writes: the triple (slider start, slider end, enabled).  The start is the
slice minimum; when the maximum is truthy (nonzero) the end is the maximum
and the slider is enabled, otherwise the end defaults to 1 and the slider is
disabled (identical to `PlaneFigure.update_histogram_range`). -/
def update_values_range (s : Slice) : Option (Int × Int × Bool) :=
  match list_min (sliceValues s), list_max (sliceValues s) with
  | some mn, some mx =>
      if mx ≠ 0 then some (mn, mx, true) else some (mn, 1, false)
  | _, _ => none

/-- Helper: a fold by `min` lands on its seed or on a list element. -/
lemma foldl_min_mem (xs : List Int) (x : Int) : xs.foldl min x ∈ x :: xs := by
  induction xs generalizing x with
  | nil => simp
  | cons y ys ih =>
      simp only [List.foldl_cons]
      rcases List.mem_cons.1 (ih (min x y)) with h1 | h1
      · rcases min_choice x y with hc | hc <;> rw [h1, hc] <;> simp
      · simp [h1]

/-- Helper: a fold by `min` is below the seed and every list element. -/
lemma foldl_min_le (xs : List Int) (x : Int) :
    ∀ a ∈ x :: xs, xs.foldl min x ≤ a := by
  induction xs generalizing x with
  | nil =>
      intro a ha
      rw [List.mem_singleton] at ha
      simp [ha]
  | cons y ys ih =>
      intro a ha
      simp only [List.foldl_cons]
      have hseed : ys.foldl min (min x y) ≤ min x y :=
        ih (min x y) (min x y) (List.mem_cons_self _ _)
      rcases List.mem_cons.1 ha with h1 | h1
      · rw [h1]
        exact le_trans hseed (min_le_left x y)
      · rcases List.mem_cons.1 h1 with h2 | h2
        · rw [h2]
          exact le_trans hseed (min_le_right x y)
        · exact ih (min x y) a (List.mem_cons_of_mem _ h2)

/-- Helper: a fold by `max` lands on its seed or on a list element. -/
lemma foldl_max_mem (xs : List Int) (x : Int) : xs.foldl max x ∈ x :: xs := by
  induction xs generalizing x with
  | nil => simp
  | cons y ys ih =>
      simp only [List.foldl_cons]
      rcases List.mem_cons.1 (ih (max x y)) with h1 | h1
      · rcases max_choice x y with hc | hc <;> rw [h1, hc] <;> simp
      · simp [h1]

/-- Helper: a fold by `max` is above the seed and every list element. -/
lemma le_foldl_max (xs : List Int) (x : Int) :
    ∀ a ∈ x :: xs, a ≤ xs.foldl max x := by
  induction xs generalizing x with
  | nil =>
      intro a ha
      rw [List.mem_singleton] at ha
      simp [ha]
  | cons y ys ih =>
      intro a ha
      simp only [List.foldl_cons]
      have hseed : max x y ≤ ys.foldl max (max x y) :=
        ih (max x y) (max x y) (List.mem_cons_self _ _)
      rcases List.mem_cons.1 ha with h1 | h1
      · rw [h1]
        exact le_trans (le_max_left x y) hseed
      · rcases List.mem_cons.1 h1 with h2 | h2
        · rw [h2]
          exact le_trans (le_max_right x y) hseed
        · exact ih (max x y) a (List.mem_cons_of_mem _ h2)

/-- Helper: `list_min` of a non-empty list is an attained lower bound. -/
lemma list_min_spec (l : List Int) (hne : l ≠ []) :
    ∃ m, list_min l = some m ∧ m ∈ l ∧ ∀ a ∈ l, m ≤ a := by
  cases l with
  | nil => exact absurd rfl hne
  | cons x xs =>
      exact ⟨xs.foldl min x, rfl, foldl_min_mem xs x, foldl_min_le xs x⟩

/-- Helper: `list_max` of a non-empty list is an attained upper bound. -/
lemma list_max_spec (l : List Int) (hne : l ≠ []) :
    ∃ m, list_max l = some m ∧ m ∈ l ∧ ∀ a ∈ l, a ≤ m := by
  cases l with
  | nil => exact absurd rfl hne
  | cons x xs =>
      exact ⟨xs.foldl max x, rfl, foldl_max_mem xs x, le_foldl_max xs x⟩

/-- Helper: membership in the sample list of a slice. -/
lemma mem_sliceValues (s : Slice) (a : Int) :
    a ∈ sliceValues s ↔
      ∃ i, i < s.rows ∧ ∃ j, j < s.cols ∧ s.val i j = a := by
  simp only [sliceValues, List.mem_flatMap, List.mem_map, List.mem_range]

/-- C5: whenever the slice has a minimum and a maximum (it is non-empty),
`update_values_range` reports the attained minimum; a zero maximum disables
the range and defaults its end to 1, a nonzero maximum is reported as is
with the range enabled. -/
theorem update_values_range_spec (s : Slice) (mn mx : Int)
    (hmin : list_min (sliceValues s) = some mn)
    (hmax : list_max (sliceValues s) = some mx) :
    mn ∈ sliceValues s ∧ mx ∈ sliceValues s ∧
    (∀ a ∈ sliceValues s, mn ≤ a ∧ a ≤ mx) ∧
    (mx = 0 → update_values_range s = some (mn, 1, false)) ∧
    (mx ≠ 0 → update_values_range s = some (mn, mx, true)) := by
  have hne : sliceValues s ≠ [] := by
    intro hnil
    rw [hnil] at hmin
    exact Option.noConfusion hmin
  obtain ⟨m1, hm1, hm1mem, hm1le⟩ := list_min_spec _ hne
  obtain ⟨m2, hm2, hm2mem, hm2le⟩ := list_max_spec _ hne
  have e1 : m1 = mn := by
    rw [hm1] at hmin
    exact Option.some.inj hmin
  have e2 : m2 = mx := by
    rw [hm2] at hmax
    exact Option.some.inj hmax
  subst e1
  subst e2
  refine ⟨hm1mem, hm2mem, fun a ha => ⟨hm1le a ha, hm2le a ha⟩, ?_, ?_⟩
  · intro h0
    simp [update_values_range, hmin, hmax, h0]
  · intro h0
    simp [update_values_range, hmin, hmax, h0]

/-- A concrete all-zero 2-by-2 slice. -/
def zeroSlice : Slice := ⟨2, 2, fun _ _ => 0⟩

/-- Witness for C5 at the all-zero slice: range disabled, end defaulted
to 1. -/
theorem update_values_range_spec_witness :
    list_min (sliceValues zeroSlice) = some 0 ∧
    list_max (sliceValues zeroSlice) = some 0 ∧
    update_values_range zeroSlice = some (0, 1, false) := by
  refine ⟨by decide, by decide, ?_⟩
  exact (update_values_range_spec zeroSlice 0 0 (by decide)
    (by decide)).2.2.2.1 rfl

/-- A concrete constant 1-by-1 slice holding 30. -/
def constSlice30 : Slice := ⟨1, 1, fun _ _ => 30⟩

/-- Counterexample for C9 as stated: the constant slice 30 has all samples
in [-5, 100], yet the range computed on its clamped copy is (30, 30, true),
not (0, 50, true). -/
theorem clamp_range_scenario_cex :
    (∀ a, a < constSlice30.rows → ∀ b, b < constSlice30.cols →
      -5 ≤ constSlice30.val a b ∧ constSlice30.val a b ≤ 100) ∧
    ¬ (update_values_range (change_displayed_range constSlice30 0 50) =
        some (0, 50, true)) := by
  decide

/-- C9 (amended): for a slice with samples in [-5, 100] that attains a
value at most 0 and a value at least 50, the clamp to (0, 50) is bounded by
[0, 50] and the range computed on the clamped result is (0, 50, true). -/
theorem clamp_range_scenario (s : Slice)
    (hb : ∀ a, a < s.rows → ∀ b, b < s.cols →
      -5 ≤ s.val a b ∧ s.val a b ≤ 100)
    (hlo : ∃ a, a < s.rows ∧ ∃ b, b < s.cols ∧ s.val a b ≤ 0)
    (hhi : ∃ a, a < s.rows ∧ ∃ b, b < s.cols ∧ 50 ≤ s.val a b) :
    (∀ a, a < s.rows → ∀ b, b < s.cols →
      0 ≤ (change_displayed_range s 0 50).val a b ∧
      (change_displayed_range s 0 50).val a b ≤ 50) ∧
    update_values_range (change_displayed_range s 0 50) =
      some (0, 50, true) := by
  have hbound : ∀ v : Int, 0 ≤ clampSample 0 50 v ∧ clampSample 0 50 v ≤ 50 := by
    intro v
    simp only [clampSample]
    split_ifs <;> omega
  have hzero_mem : (0 : Int) ∈ sliceValues (change_displayed_range s 0 50) := by
    obtain ⟨a, ha, b, hbn, hv⟩ := hlo
    rw [mem_sliceValues]
    refine ⟨a, ha, b, hbn, ?_⟩
    show clampSample 0 50 (s.val a b) = 0
    simp only [clampSample]
    split_ifs <;> omega
  have h50_mem : (50 : Int) ∈ sliceValues (change_displayed_range s 0 50) := by
    obtain ⟨a, ha, b, hbn, hv⟩ := hhi
    rw [mem_sliceValues]
    refine ⟨a, ha, b, hbn, ?_⟩
    show clampSample 0 50 (s.val a b) = 50
    simp only [clampSample]
    split_ifs <;> omega
  have hall : ∀ x ∈ sliceValues (change_displayed_range s 0 50),
      0 ≤ x ∧ x ≤ 50 := by
    intro x hx
    rw [mem_sliceValues] at hx
    obtain ⟨i, hi, j, hj, hv⟩ := hx
    rw [← hv]
    exact hbound (s.val i j)
  have hne : sliceValues (change_displayed_range s 0 50) ≠ [] :=
    List.ne_nil_of_mem hzero_mem
  obtain ⟨m1, hm1, hm1mem, hm1le⟩ := list_min_spec _ hne
  obtain ⟨m2, hm2, hm2mem, hm2le⟩ := list_max_spec _ hne
  have hm1eq : m1 = 0 := le_antisymm (hm1le 0 hzero_mem) (hall m1 hm1mem).1
  have hm2eq : m2 = 50 := le_antisymm (hall m2 hm2mem).2 (hm2le 50 h50_mem)
  subst hm1eq
  subst hm2eq
  refine ⟨fun a ha b hbn => hbound (s.val a b), ?_⟩
  simp [update_values_range, hm1, hm2]

/-- A concrete 1-by-2 slice holding -5 and 100. -/
def spanSlice : Slice := ⟨1, 2, fun _ b => if b = 0 then -5 else 100⟩

/-- Witness for C9 (amended) at the slice holding -5 and 100. -/
theorem clamp_range_scenario_witness :
    (∀ a, a < spanSlice.rows → ∀ b, b < spanSlice.cols →
      -5 ≤ spanSlice.val a b ∧ spanSlice.val a b ≤ 100) ∧
    ((∀ a, a < spanSlice.rows → ∀ b, b < spanSlice.cols →
      0 ≤ (change_displayed_range spanSlice 0 50).val a b ∧
      (change_displayed_range spanSlice 0 50).val a b ≤ 50) ∧
    update_values_range (change_displayed_range spanSlice 0 50) =
      some (0, 50, true)) := by
  refine ⟨by decide, ?_⟩
  exact clamp_range_scenario spanSlice (by decide)
    ⟨0, by decide, 0, by decide, by decide⟩
    ⟨0, by decide, 1, by decide, by decide⟩

/-- The two crosshair line orientations (`app/utils/crosshair.py`). -/
inductive CrosshairLines : Type
  | HORIZONTAL : CrosshairLines
  | VERTICAL : CrosshairLines
deriving DecidableEq, Repr

/-- The static `crosshair_line_dict` table from `app/utils/crosshair.py`:
which plane's current index drives each crosshair line of a plane. -/
def crosshair_line_dict : Plane → CrosshairLines → Plane
  | Plane.TRANSVERSE, CrosshairLines.HORIZONTAL => Plane.CORONAL
  | Plane.TRANSVERSE, CrosshairLines.VERTICAL => Plane.SAGITTAL
  | Plane.SAGITTAL, CrosshairLines.HORIZONTAL => Plane.TRANSVERSE
  | Plane.SAGITTAL, CrosshairLines.VERTICAL => Plane.CORONAL
  | Plane.CORONAL, CrosshairLines.HORIZONTAL => Plane.TRANSVERSE
  | Plane.CORONAL, CrosshairLines.VERTICAL => Plane.SAGITTAL

/-- The mutable document state of `app/main.py` that the claims observe:
the three index sliders' values, the image loaded in each plane's source
(`None` before `set_image` runs), and each plane's crosshair source,
recorded as the pair (horizontal line, vertical line). -/
structure AppState : Type where
  sliderIndex : Plane → Int
  image : Plane → Option Slice
  crosshair : Plane → List Int × List Int

/-- `get_crosshair_index`: the driving plane's slider value for a line. -/
def get_crosshair_index (st : AppState) (p : Plane)
    (line : CrosshairLines) : Int :=
  st.sliderIndex (crosshair_line_dict p line)

/-- The lines written by `update_crosshair` / `update_crosshair_source`:
`horizontal_line = [y] * image.shape[1]` and
`vertical_line = [x] * image.shape[0]`, for `x` the VERTICAL and `y` the
HORIZONTAL driving index. -/
def compute_crosshair (image : Slice) (x y : Int) : List Int × List Int :=
  (List.replicate image.cols y, List.replicate image.rows x)

/-- `update_crosshair` from `app/main.py`: reads the plane's loaded image
and both driving indices and rewrites that plane's crosshair source; with
no image loaded the read fails (`none`). -/
def update_crosshair (st : AppState) (p : Plane) : Option AppState :=
  (st.image p).map fun image =>
    { st with
        crosshair := fun q =>
          if q = p then
            compute_crosshair image
              (get_crosshair_index st p CrosshairLines.VERTICAL)
              (get_crosshair_index st p CrosshairLines.HORIZONTAL)
          else st.crosshair q }

/-- Iteration order of the `figures` dictionary in `app/main.py`. -/
def plane_list : List Plane :=
  [Plane.TRANSVERSE, Plane.SAGITTAL, Plane.CORONAL]

/-- One iteration of the loop in `update_crosshairs`: update the plane's
crosshair when it is not the skipped plane and an image is loaded. -/
def crosshairs_step (skip : Option Plane) (acc : AppState)
    (q : Plane) : AppState :=
  if some q ≠ skip ∧ (acc.image q).isSome then
    (update_crosshair acc q).getD acc
  else acc

/-- `update_crosshairs` from `app/main.py`: run the loop body over all
three planes. -/
def update_crosshairs (st : AppState) (skip : Option Plane) : AppState :=
  plane_list.foldl (crosshairs_step skip) st

/-- `set_image` from `app/main.py`, restricted to the state of this model:
load the slice at (plane, index) into the plane's image source, then
refresh the crosshairs of every other plane.  (The figure geometry and
range-slider updates it also performs live outside this state.) -/
def set_image (v : Volume) (st : AppState) (p : Plane) (index : Int) :
    AppState :=
  update_crosshairs
    { st with
        image := fun q => if q = p then get_image_data v p index else st.image q }
    (some p)

/-- A slider value change for plane `p`: the widget stores the new value,
then its callback `update_plane_index` runs
`set_image(plane, fix_index(plane, new))`. -/
def slider_change (v : Volume) (st : AppState) (p : Plane)
    (value : Int) : AppState :=
  set_image v
    { st with
        sliderIndex := fun q => if q = p then value else st.sliderIndex q }
    p (fix_index v p value)

/-- Helper: a loop iteration never touches the slider values. -/
lemma crosshairs_step_sliderIndex (skip : Option Plane) (acc : AppState)
    (q : Plane) :
    (crosshairs_step skip acc q).sliderIndex = acc.sliderIndex := by
  unfold crosshairs_step update_crosshair
  split_ifs <;> cases h : acc.image q <;> simp [h]

/-- Helper: a loop iteration never touches the loaded images. -/
lemma crosshairs_step_image (skip : Option Plane) (acc : AppState)
    (q : Plane) :
    (crosshairs_step skip acc q).image = acc.image := by
  unfold crosshairs_step update_crosshair
  split_ifs <;> cases h : acc.image q <;> simp [h]

/-- Helper: a loop iteration leaves every other plane's crosshair alone. -/
lemma crosshairs_step_crosshair_ne (skip : Option Plane) (acc : AppState)
    (q r : Plane) (hne : r ≠ q) :
    (crosshairs_step skip acc q).crosshair r = acc.crosshair r := by
  unfold crosshairs_step update_crosshair
  split_ifs <;> cases h : acc.image q <;> simp [h, hne]

/-- Helper: the effect of one loop iteration on its own plane. -/
lemma crosshairs_step_crosshair_self (skip : Option Plane) (acc : AppState)
    (q : Plane) :
    (crosshairs_step skip acc q).crosshair q =
      if some q = skip then acc.crosshair q
      else
        match acc.image q with
        | some image =>
            compute_crosshair image
              (get_crosshair_index acc q CrosshairLines.VERTICAL)
              (get_crosshair_index acc q CrosshairLines.HORIZONTAL)
        | none => acc.crosshair q := by
  unfold crosshairs_step update_crosshair
  by_cases hskip : some q = skip
  · simp [hskip]
  · cases h : acc.image q <;> simp [h, hskip]

/-- Helper: the crosshair loop never touches the slider values. -/
lemma update_crosshairs_sliderIndex (st : AppState) (skip : Option Plane) :
    (update_crosshairs st skip).sliderIndex = st.sliderIndex := by
  show (crosshairs_step skip (crosshairs_step skip
    (crosshairs_step skip st Plane.TRANSVERSE) Plane.SAGITTAL)
      Plane.CORONAL).sliderIndex = st.sliderIndex
  rw [crosshairs_step_sliderIndex, crosshairs_step_sliderIndex,
    crosshairs_step_sliderIndex]

/-- Helper: the crosshair loop never touches the loaded images. -/
lemma update_crosshairs_image (st : AppState) (skip : Option Plane) :
    (update_crosshairs st skip).image = st.image := by
  show (crosshairs_step skip (crosshairs_step skip
    (crosshairs_step skip st Plane.TRANSVERSE) Plane.SAGITTAL)
      Plane.CORONAL).image = st.image
  rw [crosshairs_step_image, crosshairs_step_image, crosshairs_step_image]

/-- Helper: pointwise description of the crosshair loop — the skipped
plane's crosshair is untouched, every other plane with a loaded image gets
its crosshair recomputed from the current driving indices. -/
lemma update_crosshairs_crosshair (st : AppState) (skip : Option Plane)
    (q : Plane) :
    (update_crosshairs st skip).crosshair q =
      if some q = skip then st.crosshair q
      else
        match st.image q with
        | some image =>
            compute_crosshair image
              (get_crosshair_index st q CrosshairLines.VERTICAL)
              (get_crosshair_index st q CrosshairLines.HORIZONTAL)
        | none => st.crosshair q := by
  cases q with
  | TRANSVERSE =>
      show (crosshairs_step skip (crosshairs_step skip
        (crosshairs_step skip st Plane.TRANSVERSE) Plane.SAGITTAL)
          Plane.CORONAL).crosshair Plane.TRANSVERSE = _
      rw [crosshairs_step_crosshair_ne skip _ Plane.CORONAL Plane.TRANSVERSE
          (by decide),
        crosshairs_step_crosshair_ne skip _ Plane.SAGITTAL Plane.TRANSVERSE
          (by decide),
        crosshairs_step_crosshair_self]
  | SAGITTAL =>
      show (crosshairs_step skip (crosshairs_step skip
        (crosshairs_step skip st Plane.TRANSVERSE) Plane.SAGITTAL)
          Plane.CORONAL).crosshair Plane.SAGITTAL = _
      rw [crosshairs_step_crosshair_ne skip _ Plane.CORONAL Plane.SAGITTAL
          (by decide),
        crosshairs_step_crosshair_self, crosshairs_step_image,
        crosshairs_step_crosshair_ne skip st Plane.TRANSVERSE Plane.SAGITTAL
          (by decide)]
      simp only [get_crosshair_index, crosshairs_step_sliderIndex]
  | CORONAL =>
      show (crosshairs_step skip (crosshairs_step skip
        (crosshairs_step skip st Plane.TRANSVERSE) Plane.SAGITTAL)
          Plane.CORONAL).crosshair Plane.CORONAL = _
      rw [crosshairs_step_crosshair_self, crosshairs_step_image,
        crosshairs_step_image,
        crosshairs_step_crosshair_ne skip _ Plane.SAGITTAL Plane.CORONAL
          (by decide),
        crosshairs_step_crosshair_ne skip st Plane.TRANSVERSE Plane.CORONAL
          (by decide)]
      simp only [get_crosshair_index, crosshairs_step_sliderIndex]

/-- C3: a slider change for plane `p` leaves `p`'s own crosshair exactly as
it was, and recomputes the crosshair of every other plane with a loaded
image from the post-event driving indices. -/
theorem slider_change_crosshairs (v : Volume) (st : AppState) (p : Plane)
    (value : Int) :
    (slider_change v st p value).crosshair p = st.crosshair p ∧
    ∀ q, q ≠ p → ∀ image, st.image q = some image →
      (slider_change v st p value).crosshair q =
        compute_crosshair image
          ((slider_change v st p value).sliderIndex
            (crosshair_line_dict q CrosshairLines.VERTICAL))
          ((slider_change v st p value).sliderIndex
            (crosshair_line_dict q CrosshairLines.HORIZONTAL)) := by
  unfold slider_change set_image
  constructor
  · rw [update_crosshairs_crosshair]
    simp
  · intro q hq image him
    rw [update_crosshairs_crosshair, update_crosshairs_sliderIndex]
    simp [hq, him, get_crosshair_index]

/-- A concrete 2-by-3 slice used by the state witnesses. -/
def sampleSlice23 : Slice := ⟨2, 3, fun a b => (a * 10 + b : Int)⟩

/-- A concrete application state: every slider at 1, every plane showing
the sample slice, empty crosshair sources. -/
def sampleState : AppState :=
  ⟨fun _ => 1, fun _ => some sampleSlice23, fun _ => ([], [])⟩

/-- Witness for C3: moving the TRANSVERSE slider to 5 in the sample state
leaves the TRANSVERSE crosshair alone and recomputes the SAGITTAL one. -/
theorem slider_change_crosshairs_witness :
    (slider_change sampleVolume sampleState Plane.TRANSVERSE 5).crosshair
        Plane.TRANSVERSE = sampleState.crosshair Plane.TRANSVERSE ∧
    Plane.SAGITTAL ≠ Plane.TRANSVERSE ∧
    sampleState.image Plane.SAGITTAL = some sampleSlice23 ∧
    (slider_change sampleVolume sampleState Plane.TRANSVERSE 5).crosshair
        Plane.SAGITTAL =
      compute_crosshair sampleSlice23
        ((slider_change sampleVolume sampleState Plane.TRANSVERSE
            5).sliderIndex
          (crosshair_line_dict Plane.SAGITTAL CrosshairLines.VERTICAL))
        ((slider_change sampleVolume sampleState Plane.TRANSVERSE
            5).sliderIndex
          (crosshair_line_dict Plane.SAGITTAL CrosshairLines.HORIZONTAL)) :=
  ⟨(slider_change_crosshairs sampleVolume sampleState Plane.TRANSVERSE 5).1,
    by decide, rfl,
    (slider_change_crosshairs sampleVolume sampleState Plane.TRANSVERSE
      5).2 Plane.SAGITTAL (by decide) sampleSlice23 rfl⟩

/-- C6: with an image loaded, `update_crosshair` succeeds and writes, for
the given plane, a horizontal line that is the HORIZONTAL driving plane's
current index repeated once per column, and a vertical line that is the
VERTICAL driving plane's current index repeated once per row. -/
theorem update_crosshair_lines (st : AppState) (p : Plane) (image : Slice)
    (h : st.image p = some image) :
    ∃ st', update_crosshair st p = some st' ∧
      st'.crosshair p =
        (List.replicate image.cols
          (st.sliderIndex (crosshair_line_dict p CrosshairLines.HORIZONTAL)),
         List.replicate image.rows
          (st.sliderIndex (crosshair_line_dict p CrosshairLines.VERTICAL))) := by
  refine ⟨{ st with
      crosshair := fun q =>
        if q = p then
          compute_crosshair image
            (get_crosshair_index st p CrosshairLines.VERTICAL)
            (get_crosshair_index st p CrosshairLines.HORIZONTAL)
        else st.crosshair q }, ?_, ?_⟩
  · rw [update_crosshair, h]
    rfl
  · simp [compute_crosshair, get_crosshair_index]

/-- Witness for C6 at the sample state, CORONAL plane. -/
theorem update_crosshair_lines_witness :
    sampleState.image Plane.CORONAL = some sampleSlice23 ∧
    ∃ st', update_crosshair sampleState Plane.CORONAL = some st' ∧
      st'.crosshair Plane.CORONAL =
        (List.replicate sampleSlice23.cols
          (sampleState.sliderIndex
            (crosshair_line_dict Plane.CORONAL CrosshairLines.HORIZONTAL)),
         List.replicate sampleSlice23.rows
          (sampleState.sliderIndex
            (crosshair_line_dict Plane.CORONAL CrosshairLines.VERTICAL))) :=
  ⟨rfl, update_crosshair_lines sampleState Plane.CORONAL sampleSlice23 rfl⟩

end SeriesViewer
